import Mathlib

/-!
Verification of the `warp_log_inspector/warp_monitor.py` monitoring core.

The Python source is shallowly embedded: pure functions become Lean
functions, the mutable monitor state becomes an explicit `MonitorState`
record threaded through `processLogLine`, Python's `re` patterns used by
`LogParser` are embedded as deterministic character-list matchers with the
same leftmost-match semantics, and `datetime.strptime` over the fixed
format list is embedded as `strptimeAll`.  Python strings are `List Char`
or `String`; case-insensitive (`re.IGNORECASE`) matching is modelled as
ASCII case folding via `Char.toUpper`.
-/

namespace WarpMonitor

/-- One character of a pattern literal matches an input character;
`ci` selects `re.IGNORECASE` (ASCII case folding) versus exact match. -/
def charMatches (ci : Bool) (c p : Char) : Bool :=
  if ci then decide (c.toUpper = p.toUpper) else decide (c = p)

/-- A fixed pattern literal (second list) matches the input (first list)
character by character; `false` when the lengths differ. -/
def charsMatch (ci : Bool) : List Char → List Char → Bool
  | [], [] => true
  | c :: cs, p :: ps => charMatches ci c p && charsMatch ci cs ps
  | _, _ => false

/-- Consume exactly `n` digit characters (`\d{n}`), returning the rest. -/
def expectDigits : Nat → List Char → Option (List Char)
  | 0, cs => some cs
  | _ + 1, [] => none
  | n + 1, c :: cs => if c.isDigit then expectDigits n cs else none

/-- Consume one literal character, returning the rest. -/
def expectChar (ci : Bool) (p : Char) : List Char → Option (List Char)
  | [] => none
  | c :: cs => if charMatches ci c p then some cs else none

/-- Match of the `timestamp` pattern
`\d{4}-\d{2}-\d{2}[T ]\d{2}:\d{2}:\d{2}(?:\.\d{3})?(?:Z|[+-]\d{2}:\d{2})?`
anchored at the head of `cs`; returns the match length. -/
def tryTimestampAt (ci : Bool) (cs : List Char) : Option Nat :=
  let base : Option (List Char) := do
    let r ← expectDigits 4 cs
    let r ← expectChar false '-' r
    let r ← expectDigits 2 r
    let r ← expectChar false '-' r
    let r ← expectDigits 2 r
    let r ← (match r with
             | c :: rest => if charMatches ci c 'T' || c == ' ' then some rest else none
             | [] => none)
    let r ← expectDigits 2 r
    let r ← expectChar false ':' r
    let r ← expectDigits 2 r
    let r ← expectChar false ':' r
    expectDigits 2 r
  match base with
  | none => none
  | some r1 =>
    let r2 := match expectChar false '.' r1 >>= expectDigits 3 with
      | some r => r
      | none => r1
    let r3 := match expectChar ci 'Z' r2 with
      | some r => r
      | none =>
        match (match r2 with
               | c :: rest => if c == '+' || c == '-' then some rest else none
               | [] => none) >>= (expectDigits 2 · ) >>=
              (expectChar false ':' ·) >>= (expectDigits 2 ·) with
        | some r => r
        | none => r2
    some (cs.length - r3.length)

/-- First-some over a list of alternatives, in order (regex alternation). -/
def findSomeIn {β : Type} : List String → (String → Option β) → Option β
  | [], _ => none
  | w :: ws, f =>
    match f w with
    | some b => some b
    | none => findSomeIn ws f

/-- The six level words of the `level` pattern
`\[(DEBUG|INFO|WARN|ERROR|TRACE|FATAL)\]`, in source order. -/
def levelWords : List String := ["DEBUG", "INFO", "WARN", "ERROR", "TRACE", "FATAL"]

/-- Match of the `level` pattern anchored at the head of `cs`;
returns (match length, captured group 1 as written in the input). -/
def tryLevelAt (ci : Bool) : List Char → Option (Nat × List Char)
  | [] => none
  | c :: rest =>
    if c = '[' then
      findSomeIn levelWords fun w =>
        let n := w.data.length
        if charsMatch ci (rest.take n) w.data &&
            (rest.drop n).head? == some ']' then
          some (n + 2, rest.take n)
        else none
    else none

/-- Match of the `component` pattern `\[([^\]]+)\]` anchored at the head;
returns (match length, captured group 1). -/
def tryComponentAt : List Char → Option (Nat × List Char)
  | [] => none
  | c :: rest =>
    if c = '[' then
      let run := rest.takeWhile (· != ']')
      if run.isEmpty then none
      else if (rest.drop run.length).head? == some ']' then
        some (run.length + 2, run)
      else none
    else none

/-- Digit characters to a natural number (Python `int` of a digit string). -/
def digitsToNat (ds : List Char) : Nat :=
  ds.foldl (fun a c => a * 10 + (c.toNat - '0'.toNat)) 0

/-- Match of the `pid_thread` pattern `\[(\d+):([^\]]+)\]` anchored at the
head; returns (match length, pid value, thread-id group). -/
def tryPidThreadAt : List Char → Option (Nat × Nat × List Char)
  | [] => none
  | c :: rest =>
    if c = '[' then
      let ds := rest.takeWhile Char.isDigit
      if ds.isEmpty then none
      else if (rest.drop ds.length).head? == some ':' then
        let rest2 := rest.drop (ds.length + 1)
        let run := rest2.takeWhile (· != ']')
        if run.isEmpty then none
        else if (rest2.drop run.length).head? == some ']' then
          some (ds.length + run.length + 3, digitsToNat ds, run)
        else none
      else none
    else none

/-- `re.search`: try the anchored matcher at each start position, leftmost
position wins (none of the embedded patterns can match the empty string). -/
def findPat {α : Type} (f : List Char → Option α) : List Char → Option α
  | [] => none
  | c :: cs =>
    match f (c :: cs) with
    | some a => some a
    | none => findPat f cs

/-- Fuel-driven body of `subAll`; the fuel (initially the list length)
dominates the number of steps, keeping the recursion structural. -/
def subAllFuel (f : List Char → Option Nat) : Nat → List Char → List Char
  | 0, _ => []
  | _ + 1, [] => []
  | fuel + 1, c :: cs =>
    match f (c :: cs) with
    | some (n + 1) => subAllFuel f fuel (cs.drop n)
    | _ => c :: subAllFuel f fuel cs

/-- `re.sub(pattern, '', s)`: delete every non-overlapping match, scanning
left to right; `f` yields the match length at a position (none of the
embedded patterns can match the empty string, so every step consumes at
least one character and the fuel never runs out). -/
def subAll (f : List Char → Option Nat) (cs : List Char) : List Char :=
  subAllFuel f cs.length cs

/-- Python `str.strip()` whitespace set. -/
def isPySpace (c : Char) : Bool :=
  c == ' ' || c == '\t' || c == '\n' || c == '\r' || c == '\x0b' || c == '\x0c'

/-- Python `str.strip()`. -/
def stripChars (cs : List Char) : List Char :=
  ((cs.dropWhile isPySpace).reverse.dropWhile isPySpace).reverse

/-- Keywords of the `error` pattern `(error|exception|failed|panic|crash)`. -/
def errorKeywords : List String := ["error", "exception", "failed", "panic", "crash"]

/-- Keywords of the `performance` pattern `(took|duration|elapsed|ms|seconds)`. -/
def perfKeywords : List String := ["took", "duration", "elapsed", "ms", "seconds"]

/-- Case-insensitive keyword search (`re.search` of an alternation of
plain words, `re.IGNORECASE`). -/
def containsAnyCI (ws : List String) : List Char → Bool
  | [] => false
  | c :: cs =>
    ws.any (fun w => charsMatch true ((c :: cs).take w.data.length) w.data) ||
      containsAnyCI ws cs

/-- A parsed wall-clock time (`datetime`), microsecond precision. -/
structure DateTime where
  year : Nat
  month : Nat
  day : Nat
  hour : Nat
  minute : Nat
  second : Nat
  micro : Nat
deriving DecidableEq

/-- Days in a month, with the Gregorian leap rule (`datetime`'s calendar). -/
def daysInMonth (y m : Nat) : Nat :=
  if m = 2 then (if y % 4 = 0 && (y % 100 != 0 || y % 400 = 0) then 29 else 28)
  else if m = 4 || m = 6 || m = 9 || m = 11 then 30 else 31

/-- Consume exactly `n` digits and return their value and the rest. -/
def grabDigits (n : Nat) (cs : List Char) : Option (Nat × List Char) :=
  let ds := cs.take n
  if ds.length = n && ds.all Char.isDigit then some (digitsToNat ds, cs.drop n)
  else none

/-- `%f`: one to six fractional digits, scaled to microseconds. -/
def grabFrac (cs : List Char) : Option (Nat × List Char) :=
  let ds := (cs.take 6).takeWhile Char.isDigit
  if ds.isEmpty then none
  else some (digitsToNat ds * 10 ^ (6 - ds.length), cs.drop ds.length)

/-- `datetime.strptime` against one format of the source's list: date,
separator `sep` (`T` or space), time, optional fraction, optional literal
`Z`; the whole input must be consumed and the fields must form a valid
`datetime` (otherwise `ValueError`, i.e. `none`). -/
def fmtParse (sep : Char) (frac : Bool) (zsuf : Bool) (cs : List Char) :
    Option DateTime := do
  let (y, r) ← grabDigits 4 cs
  let r ← expectChar false '-' r
  let (mo, r) ← grabDigits 2 r
  let r ← expectChar false '-' r
  let (d, r) ← grabDigits 2 r
  let r ← expectChar false sep r
  let (h, r) ← grabDigits 2 r
  let r ← expectChar false ':' r
  let (mi, r) ← grabDigits 2 r
  let r ← expectChar false ':' r
  let (s, r) ← grabDigits 2 r
  let (f, r) ← if frac then do
      let r ← expectChar false '.' r
      grabFrac r
    else pure (0, r)
  let r ← if zsuf then expectChar false 'Z' r else pure r
  match r with
  | [] =>
    if 1 ≤ y && 1 ≤ mo && mo ≤ 12 && 1 ≤ d && d ≤ daysInMonth y mo &&
        h ≤ 23 && mi ≤ 59 && s ≤ 59 then
      some ⟨y, mo, d, h, mi, s, f⟩
    else none
  | _ => none

/-- The source's ordered format list (`LogParser._extract_timestamp`):
`%Y-%m-%dT%H:%M:%S.%fZ`, `%Y-%m-%dT%H:%M:%S.%f`, `%Y-%m-%d %H:%M:%S.%f`,
`%Y-%m-%dT%H:%M:%SZ`, `%Y-%m-%dT%H:%M:%S`, `%Y-%m-%d %H:%M:%S`;
the first that fully parses wins. -/
def strptimeAll (cs : List Char) : Option DateTime :=
  (fmtParse 'T' true true cs).orElse fun _ =>
  (fmtParse 'T' true false cs).orElse fun _ =>
  (fmtParse ' ' true false cs).orElse fun _ =>
  (fmtParse 'T' false true cs).orElse fun _ =>
  (fmtParse 'T' false false cs).orElse fun _ =>
  fmtParse ' ' false false cs

/-- A structured log entry (`LogEntry` dataclass); the `metadata` dict is
flattened into its three always-present entries. -/
structure LogEntry where
  timestamp : DateTime
  level : String
  component : String
  message : String
  rawLine : String
  pid : Option Nat
  threadId : Option String
  hasError : Bool
  hasPerformance : Bool
  lineLength : Nat
deriving DecidableEq

/-- `LogParser._extract_timestamp`: leftmost `timestamp`-pattern match
(compiled with `IGNORECASE`), then the strptime cascade; `now` stands for
`datetime.now()` at parse time. -/
def extract_timestamp (now : DateTime) (line : List Char) : DateTime :=
  match findPat (fun cs => (tryTimestampAt true cs).map (fun n => cs.take n)) line with
  | some ts =>
    match strptimeAll ts with
    | some dt => dt
    | none => now
  | none => now

/-- `LogParser._extract_level`: group 1 of the leftmost `level`-pattern
match (compiled with `IGNORECASE`), else `INFO`. -/
def extract_level (line : List Char) : String :=
  match findPat (tryLevelAt true) line with
  | some p => String.mk p.2
  | none => "INFO"

/-- `LogParser._extract_component`: group 1 of the leftmost
`component`-pattern match, else `unknown`. -/
def extract_component (line : List Char) : String :=
  match findPat tryComponentAt line with
  | some p => String.mk p.2
  | none => "unknown"

/-- `LogParser._extract_pid_thread`: groups of the leftmost
`pid_thread`-pattern match, else `(None, None)`. -/
def extract_pid_thread (line : List Char) : Option Nat × Option String :=
  match findPat tryPidThreadAt line with
  | some t => (some t.2.1, some (String.mk t.2.2))
  | none => (none, none)

/-- The message-cleaning loop of `LogParser.parse_line`: `re.sub` each of
the four raw patterns (compiled without `IGNORECASE`) in order, calling
`.strip()` after each substitution. -/
def cleanMessage (line : List Char) : List Char :=
  let m1 := stripChars (subAll (tryTimestampAt false) line)
  let m2 := stripChars (subAll (fun cs => (tryLevelAt false cs).map Prod.fst) m1)
  let m3 := stripChars (subAll (fun cs => (tryComponentAt cs).map Prod.fst) m2)
  stripChars (subAll (fun cs => (tryPidThreadAt cs).map (fun t => t.1)) m3)

/-- `LogParser.parse_line`: total — every input line yields exactly one
`LogEntry`, with documented defaults for absent fields.  `now` stands for
`datetime.now()` at parse time. -/
def parse_line (now : DateTime) (line : String) : LogEntry :=
  let cs := line.data
  { timestamp := extract_timestamp now cs
    level := extract_level cs
    component := extract_component cs
    message := String.mk (cleanMessage cs)
    rawLine := line
    pid := (extract_pid_thread cs).1
    threadId := (extract_pid_thread cs).2
    hasError := containsAnyCI errorKeywords cs
    hasPerformance := containsAnyCI perfKeywords cs
    lineLength := cs.length }

/-- A record of the append-only `errors.json` file (`LogMonitor._log_error`
writes one newline-delimited JSON object with these fields). -/
structure ErrorRecord where
  timestamp : DateTime
  level : String
  component : String
  message : String
  pid : Option Nat
  hasErrorFlag : Bool
  hasPerformanceFlag : Bool
  lineLength : Nat
deriving DecidableEq

/-- The error record written for an entry (`LogMonitor._log_error`). -/
def errRecordOf (e : LogEntry) : ErrorRecord :=
  ⟨e.timestamp, e.level, e.component, e.message, e.pid,
   e.hasError, e.hasPerformance, e.lineLength⟩

/-- A record of the append-only `monitor.log` file
(`LogMonitor._log_to_monitor`; message truncated to 200 characters). -/
structure MonitorRecord where
  timestamp : DateTime
  level : String
  component : String
  message : String
  pid : Option Nat
deriving DecidableEq

/-- The monitor-log record written for an entry
(`LogMonitor._log_to_monitor`). -/
def monRecordOf (e : LogEntry) : MonitorRecord :=
  ⟨e.timestamp, e.level, e.component, String.mk (e.message.data.take 200), e.pid⟩

/-- `defaultdict(int)` counter table: `stats[k] += 1`. -/
def incr : List (String × Nat) → String → List (String × Nat)
  | [], k => [(k, 1)]
  | (k', v) :: rest, k =>
    if k' = k then (k', v + 1) :: rest else (k', v) :: incr rest k

/-- `defaultdict(int)` lookup: absent keys read as `0`. -/
def getCount : List (String × Nat) → String → Nat
  | [], _ => 0
  | (k', v) :: rest, k => if k' = k then v else getCount rest k

/-- `collections.deque(maxlen := cap).append x`: append on the right,
silently evicting the oldest (leftmost) element on overflow. -/
def pushBounded {α : Type} (cap : Nat) (x : α) (buf : List α) : List α :=
  let b := buf ++ [x]
  if cap < b.length then b.drop (b.length - cap) else b

/-- Capacity of `recent_entries` (`deque(maxlen=1000)`). -/
def recentEntriesCap : Nat := 1000

/-- Capacity of `error_buffer` (`deque(maxlen=100)`). -/
def errorBufferCap : Nat := 100

/-- The mutable state of `LogMonitor` touched by the aggregation path:
the counter table, the two bounded buffers, and the two append-only
output files (modelled as lists of written records). -/
structure MonitorState where
  stats : List (String × Nat)
  recentEntries : List LogEntry
  errorBuffer : List LogEntry
  monitorLog : List MonitorRecord
  errorsFile : List ErrorRecord
deriving DecidableEq

/-- `LogMonitor.__init__`: empty counters, empty buffers, empty files. -/
def initState : MonitorState := ⟨[], [], [], [], []⟩

/-- The error trigger of `_process_log_line` (line 292):
`entry.level in ['ERROR', 'FATAL'] or entry.metadata.get('has_error')`. -/
def isErrorEntry (e : LogEntry) : Bool :=
  e.level = "ERROR" || e.level = "FATAL" || e.hasError

/-- `LogMonitor._process_log_line`: an empty line returns immediately;
otherwise parse, append to `recent_entries`, bump `total_lines`,
`level_<level>` and `component_<component>`, and when the error trigger
holds, also append to `error_buffer`, bump `total_errors` and append to
the errors file; finally append to the monitor log. -/
def processLogLine (now : DateTime) (s : MonitorState) (line : String) :
    MonitorState :=
  if line = "" then s
  else
    let entry := parse_line now line
    let stats1 :=
      incr (incr (incr s.stats "total_lines") ("level_" ++ entry.level))
        ("component_" ++ entry.component)
    { stats := if isErrorEntry entry then incr stats1 "total_errors" else stats1
      recentEntries := pushBounded recentEntriesCap entry s.recentEntries
      errorBuffer :=
        if isErrorEntry entry then pushBounded errorBufferCap entry s.errorBuffer
        else s.errorBuffer
      monitorLog := s.monitorLog ++ [monRecordOf entry]
      errorsFile :=
        if isErrorEntry entry then s.errorsFile ++ [errRecordOf entry]
        else s.errorsFile }

/-- Read cursor of the tail loop (`LogMonitor._monitor_logs`): the file is
a list of lines, the cursor the index of the next line `readline` would
return.  The loop body is the whole of the loop's observable behaviour:
there is no rotation or truncation check and no reopen anywhere in it. -/
structure TailState where
  cursor : Nat
deriving DecidableEq

/-- `f.seek(0, 2)`: start at the current end of the file. -/
def tailInit (file : List String) : TailState := ⟨file.length⟩

/-- One iteration of the tail loop: `readline` returns the next line when
one exists (cursor advances) and the empty string at end of file (the
loop sleeps; state unchanged). -/
def tailStep (file : List String) (st : TailState) :
    TailState × Option String :=
  match (file.drop st.cursor).head? with
  | some l => (⟨st.cursor + 1⟩, some l)
  | none => (st, none)

/-- `n` iterations of the tail loop against a fixed file content,
collecting the delivered lines in order. -/
def tailRun (file : List String) (st : TailState) : Nat → TailState × List String
  | 0 => (st, [])
  | n + 1 =>
    let p := tailStep file st
    let q := tailRun file p.1 n
    (q.1, p.2.toList ++ q.2)

/-- `ProcessInfo` dataclass; Python floats are modelled as rationals
(no claim depends on float rounding). -/
structure ProcessInfo where
  pid : Nat
  ppid : Nat
  command : String
  started : DateTime
  cpuPercent : Rat
  memoryMb : Rat
  status : String
deriving DecidableEq

/-- A process row as constructed by `ProcessMonitor.scan_processes`
(lines 185–193): `status` is always the literal `"running"`. -/
def mkScannedProcess (pid ppid : Nat) (command : String) (started : DateTime)
    (cpu mem : Rat) : ProcessInfo :=
  { pid := pid, ppid := ppid, command := command, started := started,
    cpuPercent := cpu, memoryMb := mem, status := "running" }

/-- The retained-table update of `ProcessMonitor.scan_processes`
(lines 198–206): the table is a finite map `pid ↦ ProcessInfo`; every
retained pid absent from the new scan has its status flipped to
`terminated` (and is kept); then every scanned process overwrites or
creates its entry, later scan rows winning (dict assignment order). -/
def scanUpdate (old : Nat → Option ProcessInfo) (scanned : List ProcessInfo) :
    Nat → Option ProcessInfo :=
  scanned.foldl (fun t p => fun pid => if pid = p.pid then some p else t pid)
    (fun pid =>
      match old pid with
      | some p =>
        if pid ∈ scanned.map ProcessInfo.pid then some p
        else some { p with status := "terminated" }
      | none => none)

/-- Outcome of one write attempt of the stats file. -/
inductive WriteOutcome
  | ok
  | err
deriving DecidableEq

/-- `LogMonitor._save_stats_periodically` (lines 353–357), with
`_save_current_stats` (lines 359–366): each list element is the outcome
of that iteration's file write.  Neither function catches exceptions, so
a failing write propagates and terminates the loop's thread: the result
is how many write calls the loop ever performs. -/
def statsLoopAttempts : List WriteOutcome → Nat
  | [] => 0
  | .ok :: rest => 1 + statsLoopAttempts rest
  | .err :: _ => 1

/-- Spec §4.5/§7(d), modelled for comparison: a caught-and-logged write
failure lets the loop continue to its next scheduled flush, so every
scheduled iteration performs its write attempt. -/
def statsLoopAttemptsCaught (outcomes : List WriteOutcome) : Nat :=
  outcomes.length

/-- Key discriminator: the counters named `level_<LEVEL>`. -/
def isLevelKey (k : String) : Bool := decide (k.data.take 6 = "level_".data)

/-- Sum of all `level_*` counters of a counter table. -/
def levelSum : List (String × Nat) → Nat
  | [] => 0
  | (k, v) :: rest => (if isLevelKey k then v else 0) + levelSum rest

/-- ASCII uppercasing of a string. -/
def toUpperStr (s : String) : String := ⟨s.data.map Char.toUpper⟩

/-- A fixed parse time standing for `datetime.now()` in concrete runs. -/
def now0 : DateTime := ⟨2099, 1, 1, 0, 0, 0, 0⟩

/-- The spec §8 scenario line. -/
def scenarioLine : String :=
  "2025-01-01T10:00:00Z [ERROR] [renderer] failed to load"

/-- A concrete scanned process used in concrete runs. -/
def proc10 : ProcessInfo := mkScannedProcess 10 1 "warp preview" now0 0 0

/-- A retained table holding only pid 10, as after a scan that saw it. -/
def oldTable : Nat → Option ProcessInfo :=
  fun pid => if pid = 10 then some proc10 else none

/-! ## Helper lemmas -/

lemma take_data_append (p x : String) (n : Nat) (h : n ≤ p.data.length) :
    (p ++ x).data.take n = p.data.take n := by
  rw [String.data_append, List.take_append_eq_append_take,
    Nat.sub_eq_zero_of_le h, List.take_zero, List.append_nil]

lemma ne_append_of_take6 (a p : String) (hlen : 6 ≤ p.data.length)
    (hne : ¬ a.data.take 6 = p.data.take 6) (x : String) : a ≠ p ++ x := by
  intro h
  exact hne (by rw [h, take_data_append p x 6 hlen])

lemma getCount_incr_self (s : List (String × Nat)) (k : String) :
    getCount (incr s k) k = getCount s k + 1 := by
  induction s with
  | nil => simp [incr, getCount]
  | cons q rest ih =>
    obtain ⟨k', v⟩ := q
    by_cases h : k' = k
    · simp [incr, getCount, h]
    · simp [incr, getCount, h, ih]

lemma getCount_incr_ne (s : List (String × Nat)) (k k' : String)
    (h : k' ≠ k) : getCount (incr s k) k' = getCount s k' := by
  induction s with
  | nil => simp [incr, getCount, Ne.symm h]
  | cons q rest ih =>
    obtain ⟨k₀, v⟩ := q
    by_cases h0 : k₀ = k
    · subst h0
      simp [incr, getCount, Ne.symm h]
    · simp [incr, getCount, h0, ih]

lemma levelSum_incr (s : List (String × Nat)) (k : String) :
    levelSum (incr s k) = levelSum s + (if isLevelKey k then 1 else 0) := by
  induction s with
  | nil =>
    simp [incr, levelSum]
  | cons q rest ih =>
    obtain ⟨k', v⟩ := q
    by_cases h : k' = k
    · subst h
      simp only [incr, if_pos rfl, levelSum]
      split <;> omega
    · simp only [incr, if_neg h, levelSum, ih]
      omega

lemma isLevelKey_level (x : String) : isLevelKey ("level_" ++ x) = true := by
  have h : ("level_" ++ x).data.take 6 = "level_".data.take 6 :=
    take_data_append "level_" x 6 (by decide)
  simp only [isLevelKey, h]
  decide

lemma isLevelKey_component (x : String) :
    isLevelKey ("component_" ++ x) = false := by
  have h : ("component_" ++ x).data.take 6 = "component_".data.take 6 :=
    take_data_append "component_" x 6 (by decide)
  simp only [isLevelKey, h]
  decide

lemma total_lines_ne_level (x : String) : "total_lines" ≠ "level_" ++ x :=
  ne_append_of_take6 _ _ (by decide) (by decide) x

lemma total_lines_ne_component (x : String) :
    "total_lines" ≠ "component_" ++ x :=
  ne_append_of_take6 _ _ (by decide) (by decide) x

lemma total_errors_ne_level (x : String) : "total_errors" ≠ "level_" ++ x :=
  ne_append_of_take6 _ _ (by decide) (by decide) x

lemma total_errors_ne_component (x : String) :
    "total_errors" ≠ "component_" ++ x :=
  ne_append_of_take6 _ _ (by decide) (by decide) x

lemma getCount_stats1_total_lines (s : List (String × Nat)) (lvl comp : String) :
    getCount (incr (incr (incr s "total_lines") ("level_" ++ lvl))
      ("component_" ++ comp)) "total_lines" = getCount s "total_lines" + 1 := by
  rw [getCount_incr_ne _ _ _ (total_lines_ne_component comp),
    getCount_incr_ne _ _ _ (total_lines_ne_level lvl), getCount_incr_self]

lemma levelSum_stats1 (s : List (String × Nat)) (lvl comp : String) :
    levelSum (incr (incr (incr s "total_lines") ("level_" ++ lvl))
      ("component_" ++ comp)) = levelSum s + 1 := by
  rw [levelSum_incr, levelSum_incr, levelSum_incr, isLevelKey_component,
    isLevelKey_level]
  have htl : isLevelKey "total_lines" = false := by decide
  simp [htl]

lemma processLogLine_inv (now : DateTime) (s : MonitorState) (line : String)
    (h : getCount s.stats "total_lines" = levelSum s.stats) :
    getCount (processLogLine now s line).stats "total_lines" =
      levelSum (processLogLine now s line).stats := by
  by_cases hl : line = ""
  · simpa [processLogLine, hl] using h
  · simp only [processLogLine, if_neg hl]
    by_cases he : isErrorEntry (parse_line now line) = true
    · simp only [he, if_pos]
      rw [getCount_incr_ne _ _ _ (by decide : "total_lines" ≠ "total_errors"),
        getCount_stats1_total_lines, levelSum_incr, levelSum_stats1, h]
      have hte : isLevelKey "total_errors" = false := by decide
      simp [hte]
    · simp only [he, if_neg, Bool.not_eq_true]
      rw [getCount_stats1_total_lines, levelSum_stats1, h]

/-! ## Claim theorems -/

/-- Claim C4: after processing any sequence of lines through
`_process_log_line` starting from a fresh monitor, the `total_lines`
counter equals the sum of all `level_*` counters; as the sequence is
arbitrary, the invariant holds after every individual line. -/
theorem total_lines_eq_levelSum (now : DateTime) (lines : List String) :
    getCount (lines.foldl (processLogLine now) initState).stats "total_lines" =
      levelSum (lines.foldl (processLogLine now) initState).stats := by
  suffices h : ∀ s : MonitorState,
      getCount s.stats "total_lines" = levelSum s.stats →
      getCount (lines.foldl (processLogLine now) s).stats "total_lines" =
        levelSum (lines.foldl (processLogLine now) s).stats from
    h initState rfl
  induction lines with
  | nil => intro s hs; simpa using hs
  | cons l ls ih =>
    intro s hs
    rw [List.foldl_cons]
    exact ih _ (processLogLine_inv now s l hs)

/-- Claim C10: processing the empty line is a complete no-op on the
monitor state: no parsing effect, no counter change, no buffer append,
no file write. -/
theorem empty_line_noop (now : DateTime) (s : MonitorState) :
    processLogLine now s "" = s := by
  simp [processLogLine]

/-- Claim C6: an entry is treated as an error — appended to the bounded
error buffer, `total_errors` incremented by one, and a record appended to
the errors file — exactly when its level is ERROR or FATAL or its derived
`has_error` flag is set; otherwise all three are unchanged. -/
theorem error_path_iff (now : DateTime) (s : MonitorState) (line : String)
    (h : line ≠ "") :
    ((processLogLine now s line).errorBuffer =
      if isErrorEntry (parse_line now line) then
        pushBounded errorBufferCap (parse_line now line) s.errorBuffer
      else s.errorBuffer) ∧
    (getCount (processLogLine now s line).stats "total_errors" =
      getCount s.stats "total_errors" +
        (if isErrorEntry (parse_line now line) then 1 else 0)) ∧
    ((processLogLine now s line).errorsFile =
      if isErrorEntry (parse_line now line) then
        s.errorsFile ++ [errRecordOf (parse_line now line)]
      else s.errorsFile) := by
  refine ⟨by simp only [processLogLine, if_neg h], ?_,
    by simp only [processLogLine, if_neg h]⟩
  simp only [processLogLine, if_neg h]
  by_cases he : isErrorEntry (parse_line now line) = true
  · simp only [he, if_pos]
    rw [getCount_incr_self,
      getCount_incr_ne _ _ _ (total_errors_ne_component _),
      getCount_incr_ne _ _ _ (total_errors_ne_level _),
      getCount_incr_ne _ _ _ (by decide : "total_errors" ≠ "total_lines")]
  · simp only [he, if_neg, Bool.not_eq_true]
    rw [getCount_incr_ne _ _ _ (total_errors_ne_component _),
      getCount_incr_ne _ _ _ (total_errors_ne_level _),
      getCount_incr_ne _ _ _ (by decide : "total_errors" ≠ "total_lines")]
    simp

/-- Witness for C6 at a concrete non-error line and the fresh state. -/
theorem error_path_iff_witness :
    (processLogLine now0 initState "all good here").errorBuffer = [] ∧
    getCount (processLogLine now0 initState "all good here").stats
      "total_errors" = 0 ∧
    (processLogLine now0 initState "all good here").errorsFile = [] := by
  obtain ⟨h1, h2, h3⟩ :=
    error_path_iff now0 initState "all good here" (by decide)
  refine ⟨?_, ?_, ?_⟩
  · rw [h1]; decide
  · rw [h2]; decide
  · rw [h3]; decide

lemma pushBounded_length_le {α : Type} (cap : Nat) (x : α) (b : List α)
    (h : b.length ≤ cap) : (pushBounded cap x b).length ≤ cap := by
  simp only [pushBounded]
  split
  · simp only [List.length_drop]
    omega
  · simp only [List.length_append, List.length_singleton] at *
    omega

lemma foldl_pushBounded {α : Type} (cap : Nat) :
    ∀ (l b : List α), b.length ≤ cap →
      l.foldl (fun acc x => pushBounded cap x acc) b =
        (b ++ l).drop (b.length + l.length - cap) := by
  intro l
  induction l with
  | nil =>
    intro b h
    simp [Nat.sub_eq_zero_of_le h]
  | cons x xs ih =>
    intro b h
    rw [List.foldl_cons, ih _ (pushBounded_length_le cap x b h)]
    simp only [pushBounded]
    split
    · rename_i hlt
      simp only [List.length_append, List.length_singleton] at hlt
      have hk : b.length + 1 - cap ≤ (b ++ [x]).length := by
        simp only [List.length_append, List.length_singleton]
        omega
      have h1 : (b ++ [x]) ++ xs = b ++ x :: xs := by
        simp
      rw [List.length_append, List.length_singleton,
        ← List.drop_append_of_le_length hk, List.drop_drop, h1]
      congr 1
      simp only [List.length_drop, List.length_append, List.length_singleton,
        List.length_cons, List.length_nil]
      omega
    · rename_i hge
      simp only [List.length_append, List.length_singleton] at hge
      have h1 : (b ++ [x]) ++ xs = b ++ x :: xs := by
        simp
      have h2 : b.length + 1 + xs.length - cap =
          b.length + (x :: xs).length - cap := by
        simp only [List.length_cons]
        omega
      rw [List.length_append, List.length_singleton, h1, h2]

lemma foldl_pushBounded_nil {α : Type} (cap : Nat) (l : List α) :
    l.foldl (fun acc x => pushBounded cap x acc) [] =
      l.drop (l.length - cap) := by
  simpa using foldl_pushBounded cap l [] (by simp)

lemma tailRun_stalled (file : List String) (st : TailState)
    (h : file.length ≤ st.cursor) : ∀ n, tailRun file st n = (st, []) := by
  intro n
  induction n with
  | zero => rfl
  | succ n ih =>
    have hs : tailStep file st = (st, none) := by
      simp [tailStep, List.drop_eq_nil_of_le h]
    simp [tailRun, hs, ih]

/-- Claim C5: `recent_entries` has capacity 1000 and `error_buffer`
capacity 100; pushed one at a time from empty, each buffer always holds
exactly the last `capacity` items in insertion order (older items are
silently evicted) and never exceeds its capacity; in particular feeding
items 1–1500 leaves the capacity-1000 buffer holding 501–1500. -/
theorem ring_buffer_bounds :
    recentEntriesCap = 1000 ∧ errorBufferCap = 100 ∧
    (∀ l : List Nat,
      l.foldl (fun acc x => pushBounded recentEntriesCap x acc) [] =
        l.drop (l.length - 1000)) ∧
    (∀ l : List Nat,
      (l.foldl (fun acc x => pushBounded recentEntriesCap x acc) []).length ≤
        1000) ∧
    (∀ l : List Nat,
      l.foldl (fun acc x => pushBounded errorBufferCap x acc) [] =
        l.drop (l.length - 100)) ∧
    (∀ l : List Nat,
      (l.foldl (fun acc x => pushBounded errorBufferCap x acc) []).length ≤
        100) ∧
    (List.range' 1 1500).foldl
      (fun acc x => pushBounded recentEntriesCap x acc) [] =
      List.range' 501 1000 := by
  have hsplit : List.range' 1 1500 = List.range' 1 500 ++ List.range' 501 1000 := by
    rw [List.range'_append]
  refine ⟨rfl, rfl, fun l => foldl_pushBounded_nil 1000 l, fun l => ?_,
    fun l => foldl_pushBounded_nil 100 l, fun l => ?_, ?_⟩
  · rw [foldl_pushBounded_nil]
    simp only [List.length_drop, recentEntriesCap]
    omega
  · rw [foldl_pushBounded_nil]
    simp only [List.length_drop, errorBufferCap]
    omega
  · rw [foldl_pushBounded_nil]
    simp only [recentEntriesCap]
    have h500 : (List.range' 1 1500).length - 1000 = (List.range' 1 500).length := by
      simp [List.length_range']
    rw [h500, hsplit, List.drop_left]

/-- Claim C3: the tail loop of `_monitor_logs` performs no
rotation/truncation check and never reopens the file: once the file has
shrunk below the read cursor (here: a 5-line file replaced by a 2-line
one with the cursor still at 5), every further iteration leaves the
cursor unchanged and delivers nothing — the monitor stalls instead of
reopening at the new beginning as the claim requires. -/
theorem tail_loop_stalls_after_truncation :
    ∀ n : Nat, tailRun ["fresh-1", "fresh-2"] ⟨5⟩ n = (⟨5⟩, []) := by
  intro n
  exact tailRun_stalled _ _ (by simp) n

/-- Claim C8: `_save_stats_periodically` does not catch write failures,
so after a failed write the loop's thread dies: with outcomes
[failure, success] the loop performs only the one failing attempt,
whereas the claimed catch-and-continue behaviour would perform two. -/
theorem stats_loop_dies_on_write_failure :
    statsLoopAttempts [WriteOutcome.err, WriteOutcome.ok] = 1 ∧
    statsLoopAttemptsCaught [WriteOutcome.err, WriteOutcome.ok] = 2 ∧
    statsLoopAttempts [WriteOutcome.err, WriteOutcome.ok] ≠
      statsLoopAttemptsCaught [WriteOutcome.err, WriteOutcome.ok] := by
  exact ⟨rfl, rfl, by decide⟩

lemma findPat_some {α : Type} (f : List Char → Option α) :
    ∀ (l : List Char) (a : α), findPat f l = some a → ∃ t, f t = some a := by
  intro l
  induction l with
  | nil =>
    intro a h
    simp [findPat] at h
  | cons c cs ih =>
    intro a h
    cases hf : f (c :: cs) with
    | some b =>
      refine ⟨c :: cs, ?_⟩
      simp only [findPat, hf] at h
      rw [hf, h]
    | none =>
      simp only [findPat, hf] at h
      exact ih a h

lemma findSomeIn_some {β : Type} :
    ∀ (ws : List String) (f : String → Option β) (b : β),
      findSomeIn ws f = some b → ∃ w, w ∈ ws ∧ f w = some b := by
  intro ws
  induction ws with
  | nil =>
    intro f b h
    simp [findSomeIn] at h
  | cons w ws ih =>
    intro f b h
    cases hf : f w with
    | some b' =>
      simp only [findSomeIn, hf] at h
      exact ⟨w, List.mem_cons_self w ws, by rw [hf, h]⟩
    | none =>
      simp only [findSomeIn, hf] at h
      obtain ⟨w', hw1, hw2⟩ := ih f b h
      exact ⟨w', List.mem_cons_of_mem w hw1, hw2⟩

lemma charsMatch_toUpper :
    ∀ (a b : List Char), charsMatch true a b = true →
      a.map Char.toUpper = b.map Char.toUpper := by
  intro a
  induction a with
  | nil =>
    intro b h
    cases b with
    | nil => rfl
    | cons p ps => simp [charsMatch] at h
  | cons c cs ih =>
    intro b h
    cases b with
    | nil => simp [charsMatch] at h
    | cons p ps =>
      simp only [charsMatch, charMatches, if_pos, Bool.and_eq_true,
        decide_eq_true_eq] at h
      simp [h.1, ih ps h.2]

lemma tryLevelAt_group (t : List Char) (n : Nat) (g : List Char)
    (h : tryLevelAt true t = some (n, g)) :
    toUpperStr (String.mk g) ∈ levelWords := by
  cases t with
  | nil => simp [tryLevelAt] at h
  | cons c rest =>
    by_cases hc : c = '['
    · simp only [tryLevelAt, if_pos hc] at h
      obtain ⟨w, hw, hfw⟩ := findSomeIn_some _ _ _ h
      by_cases hm : (charsMatch true (rest.take w.data.length) w.data &&
          (rest.drop w.data.length).head? == some ']') = true
      · rw [if_pos hm] at hfw
        have hg : g = rest.take w.data.length := by
          injection hfw with hfw'
          exact (congrArg Prod.snd hfw').symm
        have hcm : charsMatch true (rest.take w.data.length) w.data = true :=
          (Bool.and_eq_true _ _ |>.mp hm).1
        have hmap := charsMatch_toUpper _ _ hcm
        have hst : toUpperStr (String.mk g) = ⟨w.data.map Char.toUpper⟩ := by
          simp only [toUpperStr, hg]
          rw [hmap]
        rw [hst]
        have hw' : w = "DEBUG" ∨ w = "INFO" ∨ w = "WARN" ∨ w = "ERROR" ∨
            w = "TRACE" ∨ w = "FATAL" := by
          simpa [levelWords] using hw
        rcases hw' with rfl | rfl | rfl | rfl | rfl | rfl <;> decide
      · rw [if_neg hm] at hfw
        exact absurd hfw (by simp)
    · simp [tryLevelAt, hc] at h

/-- Claim C2: `parse_line` is total (it is a Lean function: every line
yields exactly one `LogEntry`, all fields populated), and an absent field
falls back to its documented default: no level marker gives level `INFO`,
no bracketed component gives component `unknown`, no timestamp match
gives the parse-time clock `now`. -/
theorem parse_line_defaults (now : DateTime) (line : String) :
    (findPat (tryLevelAt true) line.data = none →
      (parse_line now line).level = "INFO") ∧
    (findPat tryComponentAt line.data = none →
      (parse_line now line).component = "unknown") ∧
    (findPat (fun cs => (tryTimestampAt true cs).map (fun n => cs.take n))
        line.data = none →
      (parse_line now line).timestamp = now) := by
  refine ⟨fun h => ?_, fun h => ?_, fun h => ?_⟩
  · simp [parse_line, extract_level, h]
  · simp [parse_line, extract_component, h]
  · simp [parse_line, extract_timestamp, h]

/-- Witness for C2 at a line with no recognizable field. -/
theorem parse_line_defaults_witness :
    findPat (tryLevelAt true) "hello".data = none ∧
    findPat tryComponentAt "hello".data = none ∧
    findPat (fun cs => (tryTimestampAt true cs).map (fun n => cs.take n))
      "hello".data = none ∧
    (parse_line now0 "hello").level = "INFO" ∧
    (parse_line now0 "hello").component = "unknown" ∧
    (parse_line now0 "hello").timestamp = now0 := by
  have h := parse_line_defaults now0 "hello"
  exact ⟨by decide, by decide, by decide,
    h.1 (by decide), h.2.1 (by decide), h.2.2 (by decide)⟩

/-- Counterexample to C9: the level pattern is compiled with
`re.IGNORECASE` and group 1 is returned as written in the input, so the
line `"[error] boom"` parses to the lowercase level `"error"`, which is
not one of the six uppercase values. -/
theorem level_lowercase_counterexample :
    (parse_line now0 "[error] boom").level = "error" ∧
    (parse_line now0 "[error] boom").level ∉ levelWords := by
  exact ⟨rfl, by decide⟩

/-- Claim C9 as amended: for every line the parsed level uppercases to
one of DEBUG/INFO/WARN/ERROR/TRACE/FATAL (the marker is matched
case-insensitively and returned as written), and is exactly `INFO`
when no level marker is present. -/
theorem level_always_known (now : DateTime) (line : String) :
    toUpperStr (parse_line now line).level ∈ levelWords ∧
    (findPat (tryLevelAt true) line.data = none →
      (parse_line now line).level = "INFO") := by
  constructor
  · cases hf : findPat (tryLevelAt true) line.data with
    | none =>
      simp only [parse_line, extract_level, hf]
      decide
    | some p =>
      obtain ⟨t, ht⟩ := findPat_some _ _ _ hf
      simp only [parse_line, extract_level, hf]
      exact tryLevelAt_group t p.1 p.2 ht
  · intro h
    simp [parse_line, extract_level, h]

/-- Witness for the amended C9 at a line with no level marker. -/
theorem level_always_known_witness :
    toUpperStr (parse_line now0 "no marker at all").level ∈ levelWords ∧
    (parse_line now0 "no marker at all").level = "INFO" :=
  ⟨(level_always_known now0 "no marker at all").1,
   (level_always_known now0 "no marker at all").2 (by decide)⟩

/-- Claim C1: evaluating `parse_line` on the spec's round-trip scenario
line: the level and message behave as claimed, but the component pattern
`\[([^\]]+)\]` matches the first bracketed token — the level marker — so
`component` is `"ERROR"`, not the distinct bracketed component
`"renderer"`. -/
theorem scenario_component_is_level :
    (parse_line now0 scenarioLine).level = "ERROR" ∧
    (parse_line now0 scenarioLine).component = "ERROR" ∧
    (parse_line now0 scenarioLine).component ≠ "renderer" ∧
    (parse_line now0 scenarioLine).hasError = true ∧
    (parse_line now0 scenarioLine).message = "failed to load" := by
  refine ⟨by decide, by decide, by decide, by decide, by decide⟩

lemma foldl_override_not_mem :
    ∀ (scanned : List ProcessInfo) (t0 : Nat → Option ProcessInfo) (pid : Nat),
      pid ∉ scanned.map ProcessInfo.pid →
      (scanned.foldl
        (fun t p => fun q => if q = p.pid then some p else t q) t0) pid =
        t0 pid := by
  intro scanned
  induction scanned with
  | nil => intro t0 pid _; rfl
  | cons p ps ih =>
    intro t0 pid hp
    rw [List.foldl_cons]
    simp only [List.map_cons, List.mem_cons, not_or] at hp
    rw [ih _ pid hp.2]
    simp [hp.1]

lemma foldl_override_mem :
    ∀ (scanned : List ProcessInfo) (t0 : Nat → Option ProcessInfo) (pid : Nat),
      pid ∈ scanned.map ProcessInfo.pid →
      ∃ p, p ∈ scanned ∧ p.pid = pid ∧
        (scanned.foldl
          (fun t p => fun q => if q = p.pid then some p else t q) t0) pid =
          some p := by
  intro scanned
  induction scanned with
  | nil => intro _ _ h; simp at h
  | cons p ps ih =>
    intro t0 pid hp
    rw [List.foldl_cons]
    by_cases hmem : pid ∈ ps.map ProcessInfo.pid
    · obtain ⟨q, hq1, hq2, hq3⟩ := ih _ pid hmem
      exact ⟨q, List.mem_cons_of_mem _ hq1, hq2, hq3⟩
    · have h1 : pid = p.pid := by
        simp only [List.map_cons, List.mem_cons] at hp
        tauto
      refine ⟨p, List.mem_cons_self _ _, h1.symm, ?_⟩
      rw [foldl_override_not_mem ps _ pid hmem]
      simp [h1]

/-- Claim C7: after a scan, every retained pid absent from the new scan
is kept with status `terminated` (never deleted), and every pid present
in the new scan has its entry created or overwritten with status
`running` (scan rows are constructed with status `"running"`). -/
theorem process_table_diff (old : Nat → Option ProcessInfo)
    (scanned : List ProcessInfo)
    (hrun : ∀ p ∈ scanned, p.status = "running") (pid : Nat) :
    (∀ p, old pid = some p → pid ∉ scanned.map ProcessInfo.pid →
      scanUpdate old scanned pid = some { p with status := "terminated" }) ∧
    (pid ∈ scanned.map ProcessInfo.pid →
      ∃ p, scanUpdate old scanned pid = some p ∧ p.status = "running") ∧
    ((old pid).isSome → (scanUpdate old scanned pid).isSome) := by
  refine ⟨?_, ?_, ?_⟩
  · intro p hp hmem
    unfold scanUpdate
    rw [foldl_override_not_mem scanned _ pid hmem]
    simp [hp, hmem]
  · intro hmem
    obtain ⟨q, hq1, hq2, hq3⟩ := foldl_override_mem scanned
      (fun q =>
        match old q with
        | some p =>
          if q ∈ scanned.map ProcessInfo.pid then some p
          else some { p with status := "terminated" }
        | none => none) pid hmem
    exact ⟨q, hq3, hrun q hq1⟩
  · intro hsome
    by_cases hmem : pid ∈ scanned.map ProcessInfo.pid
    · obtain ⟨q, hq1, hq2, hq3⟩ := foldl_override_mem scanned
        (fun q =>
          match old q with
          | some p =>
            if q ∈ scanned.map ProcessInfo.pid then some p
            else some { p with status := "terminated" }
          | none => none) pid hmem
      unfold scanUpdate
      rw [hq3]
      rfl
    · unfold scanUpdate
      rw [foldl_override_not_mem scanned _ pid hmem]
      obtain ⟨p, hp⟩ := Option.isSome_iff_exists.mp hsome
      simp [hp, hmem]

/-- Witness for C7: the spec §8 scan sequence — a table retaining pid 10
then a scan seeing nothing leaves pid 10 marked `terminated`. -/
theorem process_table_diff_witness :
    scanUpdate oldTable [] 10 = some { proc10 with status := "terminated" } :=
  (process_table_diff oldTable [] (by simp) 10).1 proc10 (by decide) (by simp)

end WarpMonitor
